import Mathlib

/-!
Shallow embedding of the content-filtering engine of `src/adBlocker.js`
(the `AdBlocker` class): filter-list parsing (`parseFilterList`,
`parseFilterRule`, `patternToRegex`), the matching engine
(`matchesException`, `shouldBlock`) and the request-interception handler
installed by `setupRequestBlocking`.

JavaScript strings are modelled as Lean `String`s operated on through their
underlying `List Char`; this matches JS code-unit semantics on the ASCII
inputs the claims use.  JS `RegExp` objects are modelled by a small regular
expression AST together with a search-style `test` function, covering
exactly the constructs reachable from the source's `patternToRegex`
pipeline (escaped specials, `.`-wildcards, `.*`, `^`/`$` anchors and
literals); constructs outside that subset (bare character classes,
alternation, class escapes such as `\d`) make compilation return `none`.
JS `new URL(u).hostname` is modelled for absolute `http`/`https` URLs,
returning `none` (the constructor throwing) otherwise.
-/

namespace AdBlock

/-- Boolean infix test on character lists. -/
def listIsInfixOf (pat : List Char) : List Char → Bool
  | [] => pat.isEmpty
  | c :: t => pat.isPrefixOf (c :: t) || listIsInfixOf pat t

/-- JS `String.prototype.includes`: substring containment on code units. -/
def strIncludes (s pat : String) : Bool :=
  listIsInfixOf pat.data s.data

/-- JS `String.prototype.startsWith`. -/
def strStartsWith (s pat : String) : Bool :=
  pat.data.isPrefixOf s.data

/-- JS `String.prototype.endsWith`. -/
def strEndsWith (s pat : String) : Bool :=
  pat.data.isSuffixOf s.data

/-- Whitespace recognised by the model of JS `String.prototype.trim`
(ASCII whitespace; the claims use no exotic Unicode spaces). -/
def isJsWhitespace (c : Char) : Bool :=
  c == ' ' || c == '\t' || c == '\n' || c == '\r' || c == '\x0b' || c == '\x0c'

/-- JS `String.prototype.trim` on the modelled whitespace set. -/
def jsTrim (s : String) : String :=
  String.mk (((s.data.dropWhile isJsWhitespace).reverse.dropWhile isJsWhitespace).reverse)

/-- Split a character list at every occurrence of `sep`, keeping empty
pieces; models JS `String.prototype.split` with a one-character separator. -/
def listSplitOn (sep : Char) : List Char → List (List Char)
  | [] => [[]]
  | c :: rest =>
    let r := listSplitOn sep rest
    if c == sep then [] :: r
    else
      match r with
      | h :: t => (c :: h) :: t
      | [] => [[c]]

/-- The structured URL object produced by JS `new URL`; only the `hostname`
field is consulted by the ad blocker. -/
structure URLObj where
  hostname : String
deriving DecidableEq, Repr

/-- Models JS `new URL(s)` restricted to absolute `http`/`https` URLs:
extracts the lowercased hostname (authority up to the first `/`, `?` or
`#`, with userinfo and port stripped) and returns `none` where the real
constructor throws.  Non-http(s) schemes, IDNA and percent-decoding are
outside the model; the claims evaluate only http/https URLs or strings
with no scheme at all. -/
def tryParseURL (s : String) : Option URLObj :=
  let afterScheme : Option (List Char) :=
    if strStartsWith s "https://" then some (s.data.drop 8)
    else if strStartsWith s "http://" then some (s.data.drop 7)
    else none
  match afterScheme with
  | none => none
  | some rest =>
    let authority := rest.takeWhile (fun c => c != '/' && c != '?' && c != '#')
    if authority.isEmpty then none
    else
      let hostport :=
        if authority.contains '@' then (authority.reverse.takeWhile (· != '@')).reverse
        else authority
      let host := hostport.takeWhile (· != ':')
      if host.isEmpty then none
      else some ⟨String.mk (host.map Char.toLower)⟩

/-- Items of the regular-expression AST modelling the JS `RegExp` objects
built by `patternToRegex` (always with the `i` flag). -/
inductive RegexItem where
  /-- A literal character, compared case-insensitively (`i` flag). -/
  | lit (c : Char)
  /-- `.` — any single character. -/
  | anyChar
  /-- `.*` — any run of characters (possibly empty). -/
  | anyStar
  /-- `^` — asserts position 0 of the input. -/
  | startAnchor
  /-- A dollar anchor — asserts the end of the input. -/
  | endAnchor
deriving DecidableEq, Repr

/-- Match a list of regex items against input `ds`, where `pos` is the
absolute position of `ds` inside the full input (needed by `^`). -/
def matchFrom : List RegexItem → Nat → List Char → Bool
  | [], _, _ => true
  | RegexItem.lit c :: rest, pos, ds =>
    match ds with
    | [] => false
    | d :: ds' => (c.toLower == d.toLower) && matchFrom rest (pos + 1) ds'
  | RegexItem.anyChar :: rest, pos, ds =>
    match ds with
    | [] => false
    | _ :: ds' => matchFrom rest (pos + 1) ds'
  | RegexItem.anyStar :: rest, pos, ds =>
    (List.range (ds.length + 1)).any (fun k => matchFrom rest (pos + k) (ds.drop k))
  | RegexItem.startAnchor :: rest, pos, ds =>
    (pos == 0) && matchFrom rest pos ds
  | RegexItem.endAnchor :: rest, pos, ds =>
    ds.isEmpty && matchFrom rest pos ds

/-- JS `RegExp.prototype.test`: search for a match starting at any
position of the input. -/
def regexTest (re : List RegexItem) (s : String) : Bool :=
  (List.range (s.data.length + 1)).any (fun i => matchFrom re i (s.data.drop i))

/-- Compile a JS regular-expression source string (as produced by
`patternToRegex`) into the AST; `none` models `new RegExp` throwing, and
is also returned for JS constructs outside the modelled subset (bare
classes, alternation, quantifiers on non-`.` atoms, class escapes). -/
def parseRegexSource : List Char → Option (List RegexItem)
  | [] => some []
  | '\\' :: [] => none
  | '\\' :: c :: rest =>
    if c.isAlphanum then none
    else (parseRegexSource rest).map (fun items => RegexItem.lit c :: items)
  | '.' :: '*' :: rest => (parseRegexSource rest).map (fun items => RegexItem.anyStar :: items)
  | '.' :: rest => (parseRegexSource rest).map (fun items => RegexItem.anyChar :: items)
  | '^' :: rest => (parseRegexSource rest).map (fun items => RegexItem.startAnchor :: items)
  | '$' :: rest => (parseRegexSource rest).map (fun items => RegexItem.endAnchor :: items)
  | c :: rest =>
    if c == '*' || c == '+' || c == '?' || c == '(' || c == ')' ||
       c == '[' || c == ']' || c == '\x7b' || c == '\x7d' || c == '|' then none
    else (parseRegexSource rest).map (fun items => RegexItem.lit c :: items)

/-- The first replacement of `patternToRegex`:
`pattern.replace(/[.+[\]{}()]/g, '\\$&')`. -/
def escapeRegexSpecials (l : List Char) : List Char :=
  l.flatMap (fun c =>
    if c == '.' || c == '+' || c == '[' || c == ']' ||
       c == '\x7b' || c == '\x7d' || c == '(' || c == ')'
    then ['\\', c] else [c])

/-- The second replacement of `patternToRegex`: `.replace(/\*/g, '.*')`. -/
def starToDotStar (l : List Char) : List Char :=
  l.flatMap (fun c => if c == '*' then ['.', '*'] else [c])

/-- The third replacement of `patternToRegex`: `.replace(/\?/g, '.')`. -/
def questionToDot (l : List Char) : List Char :=
  l.map (fun c => if c == '?' then '.' else c)

/-- `AdBlocker.patternToRegex`: escape regex specials except `*` and `?`,
turn `*` into `.*` and `?` into `.`, then compile case-insensitively;
`none` models the `catch` branch returning `null`. -/
def patternToRegex (pattern : String) : Option (List RegexItem) :=
  parseRegexSource (questionToDot (starToDotStar (escapeRegexSpecials pattern.data)))

/-- The `type` tag strings of the rule objects built by `parseFilterRule`. -/
inductive RuleType where
  | domain
  | start
  | «end»
  | regex
  | substring
deriving DecidableEq, Repr

/-- The dynamically-typed `pattern` field of a rule object: a plain string
for `domain`/`start`/`end`/`substring` rules, and a compiled `RegExp` or
`null` for `regex` rules. -/
inductive RulePattern where
  | str (s : String)
  | re (r : Option (List RegexItem))
deriving DecidableEq, Repr

/-- One parsed filter rule, mirroring the object literals returned by
`AdBlocker.parseFilterRule` (`type`, `pattern`, `rule`). -/
structure Rule where
  type : RuleType
  pattern : RulePattern
  rule : String
deriving DecidableEq, Repr

/-- Models `rule.match(/\$([^$]+)$/)`: the captured text after the last
`$`, provided it is nonempty (it contains no `$` by construction). -/
def optionsSuffix (r : String) : Option String :=
  let suf := r.data.reverse.takeWhile (fun c => c != '$')
  if r.data.contains '$' && !suf.isEmpty then some (String.mk suf.reverse) else none

/-- The character-class text substituted for each `^` of a separator rule. -/
def separatorClass : String := "[^a-zA-Z0-9._%-]*"

/-- `AdBlocker.parseFilterRule`: strip an options suffix, reject rules with
unsupported option tokens, then classify the remaining text as a
domain / start / end / regex / substring rule.  The JS body cannot throw
on string input, so the surrounding `try`/`catch` is not represented. -/
def parseFilterRule (rule : String) : Option Rule :=
  let optionsMatch := optionsSuffix rule
  let options : List String :=
    match optionsMatch with
    | some s => (listSplitOn ',' s.data).map String.mk
    | none => []
  let ruleWithoutOptions : String :=
    match optionsMatch with
    | some _ => String.mk (rule.data.takeWhile (fun c => c != '$'))
    | none => rule
  if options.any (fun opt =>
      strIncludes opt "script" || strIncludes opt "stylesheet" ||
      strIncludes opt "xmlhttprequest") then
    none
  else if strIncludes ruleWithoutOptions "||" then
    let afterBars :=
      if strStartsWith ruleWithoutOptions "||" then ruleWithoutOptions.data.drop 2
      else ruleWithoutOptions.data
    some ⟨RuleType.domain, RulePattern.str (String.mk (afterBars.takeWhile (fun c => c != '^'))),
          ruleWithoutOptions⟩
  else if strStartsWith ruleWithoutOptions "|" then
    some ⟨RuleType.start, RulePattern.str (String.mk (ruleWithoutOptions.data.drop 1)),
          ruleWithoutOptions⟩
  else if strEndsWith ruleWithoutOptions "|" then
    some ⟨RuleType.«end», RulePattern.str (String.mk ruleWithoutOptions.data.dropLast),
          ruleWithoutOptions⟩
  else if ruleWithoutOptions.data.contains '^' then
    let pattern := String.mk (ruleWithoutOptions.data.flatMap
      (fun c => if c == '^' then separatorClass.data else [c]))
    some ⟨RuleType.regex, RulePattern.re (patternToRegex pattern), ruleWithoutOptions⟩
  else
    some ⟨RuleType.substring, RulePattern.str ruleWithoutOptions, ruleWithoutOptions⟩

/-- The per-line body of `AdBlocker.parseFilterList`, processing the lines
in order and returning `(rules, exceptions)`. -/
def parseLines : List String → List Rule × List Rule
  | [] => ([], [])
  | line :: rest =>
    let (rules, exceptions) := parseLines rest
    let trimmed := jsTrim line
    if trimmed == "" || strStartsWith trimmed "!" || strStartsWith trimmed "#" ||
       strStartsWith trimmed "[Adblock" then
      (rules, exceptions)
    else if strStartsWith trimmed "@@" then
      let exceptionRule := jsTrim (String.mk (trimmed.data.drop 2))
      if exceptionRule == "" || exceptionRule.length < 3 || exceptionRule.length > 2048 then
        (rules, exceptions)
      else
        match parseFilterRule exceptionRule with
        | some r => (rules, r :: exceptions)
        | none => (rules, exceptions)
    else if trimmed.length < 3 || trimmed.length > 2048 then
      (rules, exceptions)
    else
      match parseFilterRule trimmed with
      | some r => (r :: rules, exceptions)
      | none => (rules, exceptions)

/-- `AdBlocker.parseFilterList`: split the raw list text on newlines and
parse each line. -/
def parseFilterList (data : String) : List Rule × List Rule :=
  parseLines ((listSplitOn '\n' data.data).map String.mk)

/-- The in-memory state of one `AdBlocker` instance (the fields the
matching engine reads). -/
structure AdBlocker where
  filterRules : List Rule
  exceptionRules : List Rule
  isEnabled : Bool
deriving Repr

/-- One arm of the `switch (filter.type)` statements of `matchesException`
and `shouldBlock`, deciding whether one rule matches a successfully parsed
URL.  The cross-typed fallthrough cases (a string-typed rule holding a
regex payload or vice versa) are never produced by the parser and yield no
match, mirroring the JS comparisons on mismatched runtime types. -/
def ruleMatches (urlString : String) (urlObj : URLObj) (filter : Rule) : Bool :=
  match filter.type, filter.pattern with
  | RuleType.domain, RulePattern.str p =>
    urlObj.hostname == p || strEndsWith urlObj.hostname ("." ++ p)
  | RuleType.start, RulePattern.str p => strStartsWith urlString p
  | RuleType.«end», RulePattern.str p => strEndsWith urlString p
  | RuleType.regex, RulePattern.re (some r) => regexTest r urlString
  | RuleType.regex, RulePattern.re none => false
  | RuleType.substring, RulePattern.str p => strIncludes urlString p
  | _, _ => false

/-- The per-rule check of the URL-parse-failure fallback loops:
`filter.type === 'substring' && url.includes(filter.pattern)`. -/
def substringFallbackMatch (url : String) (filter : Rule) : Bool :=
  filter.type == RuleType.substring &&
    (match filter.pattern with
     | RulePattern.str p => strIncludes url p
     | RulePattern.re _ => false)

/-- JS truthiness of the `url` argument: `undefined`/`null` are `none`,
and the empty string is also falsy. -/
def jsFalsy : Option String → Bool
  | none => true
  | some s => s == ""

/-- `AdBlocker.matchesException`: `false` for a falsy url; otherwise try
`new URL` and scan the exception rules with the full per-kind matching,
falling back to substring-only matching when URL parsing throws. -/
def matchesException (ab : AdBlocker) (url : Option String) : Bool :=
  if jsFalsy url then false
  else
    let u := url.getD ""
    match tryParseURL u with
    | some urlObj => ab.exceptionRules.any (fun e => ruleMatches u urlObj e)
    | none => ab.exceptionRules.any (fun e => substringFallbackMatch u e)

/-- `AdBlocker.shouldBlock`: guard on the enabled flag and a falsy url,
let exceptions win, then scan the block rules (with the same
substring-only fallback when URL parsing throws). -/
def shouldBlock (ab : AdBlocker) (url : Option String) : Bool :=
  if !ab.isEnabled || jsFalsy url then false
  else if matchesException ab url then false
  else
    let u := url.getD ""
    match tryParseURL u with
    | some urlObj => ab.filterRules.any (fun f => ruleMatches u urlObj f)
    | none => ab.filterRules.any (fun f => substringFallbackMatch u f)

/-- The `onBeforeRequest` handler installed by
`AdBlocker.setupRequestBlocking`; returns the `cancel` flag passed to the
callback.  `resourceType` is the string tag supplied by the host. -/
def onBeforeRequest (ab : AdBlocker) (url : String) (resourceType : String) : Bool :=
  if !ab.isEnabled then false
  else if resourceType == "mainFrame" then false
  else shouldBlock ab (some url)

end AdBlock

namespace AdBlock

/-! Helper lemmas shared by the claim theorems. -/

/-- The endsWith model agrees with the string-append characterisation of a
suffix. -/
theorem strEndsWith_iff_exists (a b : String) :
    strEndsWith a b = true ↔ ∃ s : String, a = s ++ b := by
  unfold strEndsWith
  rw [List.isSuffixOf_iff_suffix]
  constructor
  · rintro ⟨t, ht⟩
    exact ⟨String.mk t, String.ext (by simp [← ht])⟩
  · rintro ⟨s, rfl⟩
    exact ⟨s.data, (String.data_append s b).symm⟩

end AdBlock

namespace AdBlock

/-- A blocker with a single substring exception rule, used to witness the
exception-precedence theorem. -/
def adsExceptionBlocker : AdBlocker :=
  ⟨[⟨RuleType.domain, RulePattern.str "x.com", "||x.com^"⟩],
   [⟨RuleType.substring, RulePattern.str "ads", "ads"⟩], true⟩

/-- C1: exception rules win absolutely — whenever `matchesException` finds a
matching exception rule (for any rule set and any URL, parseable or not),
`shouldBlock` returns `false`, no matter which block rules also match;
`shouldBlock` consults the exceptions before any block rule. -/
theorem exception_rules_win (ab : AdBlocker) (url : Option String)
    (h : matchesException ab url = true) : shouldBlock ab url = false := by
  unfold shouldBlock
  rw [h]
  cases hb : (!ab.isEnabled || jsFalsy url) <;> simp

/-- Witness for C1 at a concrete blocker whose block rule matches the URL
host while a substring exception also matches. -/
theorem exception_rules_win_witness :
    shouldBlock adsExceptionBlocker (some "https://x.com/ads.js") = false :=
  exception_rules_win adsExceptionBlocker (some "https://x.com/ads.js") (by decide)

/-- C3: the `onBeforeRequest` handler never cancels a `mainFrame`
(top-level navigation) request, for every blocker state — including any
rule set containing a DomainAnchor rule for the navigated host — and every
URL. -/
theorem mainFrame_never_blocked (ab : AdBlocker) (url : String) :
    onBeforeRequest ab url "mainFrame" = false := by
  unfold onBeforeRequest
  cases h : (!ab.isEnabled) <;> simp

/-- C10: the decision function returns `false` for an absent/null URL and
for the empty string, and returns `false` for every URL when the blocker
is disabled; `matchesException` likewise guards a falsy URL.  All these
calls are total (the guards run before any rule is consulted). -/
theorem falsy_and_disabled_guards :
    (∀ (ab : AdBlocker) (u : Option String), u = none ∨ u = some "" →
      shouldBlock ab u = false)
    ∧ (∀ (ab : AdBlocker) (u : Option String), ab.isEnabled = false →
      shouldBlock ab u = false)
    ∧ (∀ (ab : AdBlocker) (u : Option String), u = none ∨ u = some "" →
      matchesException ab u = false) := by
  refine ⟨?_, ?_, ?_⟩
  · rintro ab u (rfl | rfl) <;> simp [shouldBlock, jsFalsy]
  · intro ab u h
    unfold shouldBlock
    rw [h]
    simp
  · rintro ab u (rfl | rfl) <;> simp [matchesException, jsFalsy]

/-- Witness for C10 at a concrete enabled blocker and `none` URL. -/
theorem falsy_and_disabled_guards_witness :
    shouldBlock ⟨[], [], true⟩ none = false :=
  falsy_and_disabled_guards.1 ⟨[], [], true⟩ none (Or.inl rfl)

end AdBlock

namespace AdBlock

/-- The rule set built from the single source line `||doubleclick.net^`. -/
def doubleclickBlocker : AdBlocker :=
  ⟨(parseFilterList "||doubleclick.net^").1, (parseFilterList "||doubleclick.net^").2, true⟩

/-- C2: a DomainAnchor rule with pattern `p` matches a parsed URL exactly
when the host equals `p` or is a subdomain of it (host = `s ++ "." ++ p`
for some `s`); a host merely containing `p` elsewhere does not match.
Concretely, `||doubleclick.net^` compiles to a DomainAnchor rule with
pattern `doubleclick.net`, blocks `https://ad.doubleclick.net/x` and does
not block `https://doubleclick.net.safe.com/x`. -/
theorem domainAnchor_matching (p raw u : String) (o : URLObj)
    (hp : tryParseURL u = some o) :
    (ruleMatches u o ⟨RuleType.domain, RulePattern.str p, raw⟩ = true ↔
      o.hostname = p ∨ ∃ s : String, o.hostname = s ++ ("." ++ p))
    ∧ parseFilterRule "||doubleclick.net^" =
        some ⟨RuleType.domain, RulePattern.str "doubleclick.net", "||doubleclick.net^"⟩
    ∧ shouldBlock doubleclickBlocker (some "https://ad.doubleclick.net/x") = true
    ∧ shouldBlock doubleclickBlocker (some "https://doubleclick.net.safe.com/x") = false := by
  refine ⟨?_, by decide, by decide, by decide⟩
  show (o.hostname == p || strEndsWith o.hostname ("." ++ p)) = true ↔ _
  rw [Bool.or_eq_true, beq_iff_eq, strEndsWith_iff_exists]

/-- Witness for C2: the DomainAnchor characterisation applied to the parsed
host of `https://ad.doubleclick.net/x`. -/
theorem domainAnchor_matching_witness :
    ruleMatches "https://ad.doubleclick.net/x" ⟨"ad.doubleclick.net"⟩
        ⟨RuleType.domain, RulePattern.str "doubleclick.net", "||doubleclick.net^"⟩ = true ↔
      ("ad.doubleclick.net" : String) = "doubleclick.net" ∨
        ∃ s : String, ("ad.doubleclick.net" : String) = s ++ ("." ++ "doubleclick.net") :=
  (domainAnchor_matching "doubleclick.net" "||doubleclick.net^"
    "https://ad.doubleclick.net/x" ⟨"ad.doubleclick.net"⟩ (by decide)).1

/-- The compiled regex the source actually builds for the line `example^`:
`patternToRegex` escapes the `[` and `]` of the freshly substituted
separator class, so the class degenerates into literal characters around a
mid-pattern `^` start anchor. -/
def exampleSeparatorAST : List RegexItem :=
  [RegexItem.lit 'e', RegexItem.lit 'x', RegexItem.lit 'a', RegexItem.lit 'm',
   RegexItem.lit 'p', RegexItem.lit 'l', RegexItem.lit 'e', RegexItem.lit '[',
   RegexItem.startAnchor, RegexItem.lit 'a', RegexItem.lit '-', RegexItem.lit 'z',
   RegexItem.lit 'A', RegexItem.lit '-', RegexItem.lit 'Z', RegexItem.lit '0',
   RegexItem.lit '-', RegexItem.lit '9', RegexItem.lit '.', RegexItem.lit '_',
   RegexItem.lit '%', RegexItem.lit '-', RegexItem.lit ']', RegexItem.anyStar]

/-- The rule set built from the single separator line `example^`. -/
def exampleSeparatorBlocker : AdBlocker :=
  ⟨(parseFilterList "example^").1, (parseFilterList "example^").2, true⟩

/-- C4 (code-bug evaluation): the line `example^` compiles to a regex whose
separator class was destroyed by the later escaping pass — it demands the
literal text `example[` followed by a start-of-input anchor — so it does
not match `http://example/x` and the URL is not blocked, contrary to the
claim and to the source's own comment. -/
theorem separator_rule_never_matches_example :
    parseFilterRule "example^" =
      some ⟨RuleType.regex, RulePattern.re (some exampleSeparatorAST), "example^"⟩
    ∧ regexTest exampleSeparatorAST "http://example/x" = false
    ∧ shouldBlock exampleSeparatorBlocker (some "http://example/x") = false := by
  refine ⟨by decide, by decide, by decide⟩

/-- The rule set built from `||tracker.com^` and `@@||tracker.com/allowed^`. -/
def trackerBlocker : AdBlocker :=
  ⟨(parseFilterList "||tracker.com^\n@@||tracker.com/allowed^").1,
   (parseFilterList "||tracker.com^\n@@||tracker.com/allowed^").2, true⟩

/-- C6 counterexample: in the two-line scenario the request to
`https://tracker.com/allowed/x` is NOT allowed — `shouldBlock` does not
return `false` for it, contradicting the claimed verdict. -/
theorem trackerAllowed_counterexample :
    shouldBlock trackerBlocker (some "https://tracker.com/allowed/x") ≠ false := by
  decide

/-- C6 amended: the exception line `@@||tracker.com/allowed^` compiles to a
DomainAnchor rule with pattern `tracker.com/allowed` (everything before the
first `^`), which is compared against the URL host only; it therefore fails
to match `https://tracker.com/allowed/x` (host `tracker.com`), and the
request is blocked by the domain block rule `||tracker.com^`. -/
theorem trackerAllowed_amended :
    parseFilterList "||tracker.com^\n@@||tracker.com/allowed^" =
      ([⟨RuleType.domain, RulePattern.str "tracker.com", "||tracker.com^"⟩],
       [⟨RuleType.domain, RulePattern.str "tracker.com/allowed", "||tracker.com/allowed^"⟩])
    ∧ matchesException trackerBlocker (some "https://tracker.com/allowed/x") = false
    ∧ shouldBlock trackerBlocker (some "https://tracker.com/allowed/x") = true := by
  refine ⟨by decide, by decide, by decide⟩

end AdBlock

namespace AdBlock

/-- C5 counterexample: the line `||^` (whose extracted pattern is empty) is
NOT dropped — it enters the rule set as a DomainAnchor rule with empty
pattern. -/
theorem emptyPattern_enters_ruleset :
    parseFilterList "||^" = ([⟨RuleType.domain, RulePattern.str "", "||^"⟩], []) := by
  decide

/-- C5 amended: the parser drops a rule only for unsupported `$` options —
any line without a `$` always yields a rule, whatever its pattern; an empty
extracted pattern is kept, and a failed regex compilation is kept as a rule
whose `null` pattern simply never matches any URL (the line `a^\`
concretely produces such a rule). -/
theorem rules_kept_despite_bad_pattern :
    (∀ r : String, r.data.contains '$' = false → (parseFilterRule r).isSome = true)
    ∧ (∀ (u : String) (o : URLObj) (raw : String),
        ruleMatches u o ⟨RuleType.regex, RulePattern.re none, raw⟩ = false)
    ∧ parseFilterRule "a^\\" = some ⟨RuleType.regex, RulePattern.re none, "a^\\"⟩ := by
  refine ⟨?_, ?_, by decide⟩
  · intro r h
    have hopt : optionsSuffix r = none := by
      unfold optionsSuffix
      rw [h]
      rfl
    unfold parseFilterRule
    rw [hopt]
    dsimp only
    split
    · next hfalse => exact absurd hfalse (by simp)
    · split
      · rfl
      · split
        · rfl
        · split
          · rfl
          · split
            · rfl
            · rfl
  · intro u o raw
    rfl

/-- Witness for C5: a plain `$`-free line is parsed into a rule. -/
theorem rules_kept_despite_bad_pattern_witness :
    (parseFilterRule "abc").isSome = true :=
  rules_kept_despite_bad_pattern.1 "abc" (by decide)

end AdBlock

namespace AdBlock

/-- Constructor/field round trip for the string model. -/
theorem mk_data (l : List Char) : (String.mk l).data = l := rfl

/-- The text kept before the first `$` contains no `$`. -/
theorem takeWhile_dollar_free (l : List Char) :
    '$' ∉ l.takeWhile (fun c => c != '$') := by
  intro h
  have := List.mem_takeWhile_imp h
  simp at this

/-- When a character list contains `$`, dropping its `$`-free prefix
exposes the first `$`. -/
theorem dropWhile_dollar_head (l : List Char) (hc : '$' ∈ l) :
    ∃ tl, l.dropWhile (fun c => c != '$') = '$' :: tl := by
  induction l with
  | nil => simp at hc
  | cons c t ih =>
    by_cases hc' : c = '$'
    · subst hc'
      exact ⟨t, by simp [List.dropWhile_cons]⟩
    · rcases List.mem_cons.mp hc with h | h
      · exact absurd h.symm hc'
      · obtain ⟨tl, htl⟩ := ih h
        exact ⟨tl, by simp [List.dropWhile_cons, hc', htl]⟩

/-- A successful options match implies the rule text contains a `$`. -/
theorem optionsSuffix_some_contains (r s : String) (h : optionsSuffix r = some s) :
    r.data.contains '$' = true := by
  by_cases hc : r.data.contains '$' = true
  · exact hc
  · rw [Bool.not_eq_true] at hc
    unfold optionsSuffix at h
    rw [hc] at h
    simp at h

/-- Whenever an options suffix was stripped, the `rule` field of the parsed
rule is the text before the FIRST `$` of the input line. -/
theorem parseFilterRule_rule_eq (r s : String) (hs : optionsSuffix r = some s)
    (rl : Rule) (h : parseFilterRule r = some rl) :
    rl.rule = String.mk (r.data.takeWhile (fun c => c != '$')) := by
  unfold parseFilterRule at h
  rw [hs] at h
  dsimp only at h
  split at h
  · exact absurd h (by simp)
  · split at h
    · injection h with h2
      subst h2
      rfl
    · split at h
      · injection h with h2
        subst h2
        rfl
      · split at h
        · injection h with h2
          subst h2
          rfl
        · split at h
          · injection h with h2
            subst h2
            rfl
          · injection h with h2
            subst h2
            rfl

/-- C7 counterexample: for the line `ab$cd$ef` (two `$`), the options are
taken from after the LAST `$` (`ef`, which is supported, so the rule is
kept), but the remaining pattern text is `ab` — everything before the
FIRST `$` — not `ab$cd` as the claim states. -/
theorem optionsStrip_counterexample :
    parseFilterRule "ab$cd$ef" = some ⟨RuleType.substring, RulePattern.str "ab", "ab"⟩
    ∧ (parseFilterRule "ab$cd$ef").map Rule.rule ≠ some "ab$cd" := by
  refine ⟨by decide, by decide⟩

/-- C7 amended: when a line has an options suffix (nonempty text after its
last `$`), the surviving rule's pattern text is everything before the
first `$` (in particular it is `$`-free), and a rule whose option tokens
contain `script`, `stylesheet` or `xmlhttprequest` is rejected entirely. -/
theorem optionsStrip_amended :
    (∀ (r s : String), optionsSuffix r = some s → ∀ rl : Rule,
      parseFilterRule r = some rl →
        '$' ∉ rl.rule.data ∧ ∃ rest : String, r = rl.rule ++ "$" ++ rest)
    ∧ (∀ (r s : String), optionsSuffix r = some s →
        (((listSplitOn ',' s.data).map String.mk).any (fun opt =>
          strIncludes opt "script" || strIncludes opt "stylesheet" ||
          strIncludes opt "xmlhttprequest")) = true →
        parseFilterRule r = none) := by
  constructor
  · intro r s hs rl h
    have hrule := parseFilterRule_rule_eq r s hs rl h
    have hc := optionsSuffix_some_contains r s hs
    constructor
    · rw [hrule]
      exact takeWhile_dollar_free r.data
    · have hmem : '$' ∈ r.data := by simpa using hc
      obtain ⟨tl, htl⟩ := dropWhile_dollar_head r.data hmem
      refine ⟨String.mk tl, ?_⟩
      rw [hrule]
      apply String.ext
      have hsplit := List.takeWhile_append_dropWhile
        (p := fun c => c != '$') (l := r.data)
      rw [htl] at hsplit
      simp only [String.data_append, mk_data]
      simpa [List.append_assoc] using hsplit.symm
  · intro r s hs hbad
    unfold parseFilterRule
    rw [hs]
    dsimp only
    rw [hbad]
    rfl

/-- Witness for C7: the amended characterisation applied to the concrete
line `ab$cd$ef`, whose parsed rule has pattern text `ab`. -/
theorem optionsStrip_amended_witness :
    '$' ∉ (Rule.rule ⟨RuleType.substring, RulePattern.str "ab", "ab"⟩).data
    ∧ ∃ rest : String,
        ("ab$cd$ef" : String) =
          Rule.rule ⟨RuleType.substring, RulePattern.str "ab", "ab"⟩ ++ "$" ++ rest :=
  optionsStrip_amended.1 "ab$cd$ef" "ef" (by decide)
    ⟨RuleType.substring, RulePattern.str "ab", "ab"⟩ (by decide)

end AdBlock

namespace AdBlock

/-- Lines whose trimmed text is empty are skipped by the line parser. -/
theorem parseLines_skip_blank (line : String) (rest : List String)
    (h : jsTrim line = "") : parseLines (line :: rest) = parseLines rest := by
  rcases hpr : parseLines rest with ⟨rules, exceptions⟩
  unfold parseLines
  rw [hpr]
  simp [h]

/-- Lines whose trimmed text starts with `!`, `#` or `[Adblock` are
skipped by the line parser. -/
theorem parseLines_skip_comment (line : String) (rest : List String)
    (h : strStartsWith (jsTrim line) "!" = true ∨ strStartsWith (jsTrim line) "#" = true ∨
      strStartsWith (jsTrim line) "[Adblock" = true) :
    parseLines (line :: rest) = parseLines rest := by
  rcases hpr : parseLines rest with ⟨rules, exceptions⟩
  unfold parseLines
  rw [hpr]
  rcases h with h | h | h <;> simp [h]

/-- Non-exception lines whose trimmed length is outside `[3, 2048]` are
skipped by the line parser. -/
theorem parseLines_skip_length (line : String) (rest : List String)
    (h1 : strStartsWith (jsTrim line) "@@" = false)
    (h2 : (jsTrim line).length < 3 ∨ 2048 < (jsTrim line).length) :
    parseLines (line :: rest) = parseLines rest := by
  rcases hpr : parseLines rest with ⟨rules, exceptions⟩
  unfold parseLines
  rw [hpr]
  by_cases hskip : (jsTrim line == "" || strStartsWith (jsTrim line) "!" ||
      strStartsWith (jsTrim line) "#" || strStartsWith (jsTrim line) "[Adblock") = true
  · simp [hskip]
  · rw [Bool.not_eq_true] at hskip
    rcases h2 with h2 | h2 <;> simp [hskip, h1, h2]

/-- Exception (`@@`) lines whose stripped remainder is empty or has length
outside `[3, 2048]` are skipped by the line parser. -/
theorem parseLines_skip_exception (line : String) (rest : List String)
    (h1 : strStartsWith (jsTrim line) "@@" = true)
    (h2 : jsTrim (String.mk ((jsTrim line).data.drop 2)) = "" ∨
      (jsTrim (String.mk ((jsTrim line).data.drop 2))).length < 3 ∨
      2048 < (jsTrim (String.mk ((jsTrim line).data.drop 2))).length) :
    parseLines (line :: rest) = parseLines rest := by
  rcases hpr : parseLines rest with ⟨rules, exceptions⟩
  unfold parseLines
  rw [hpr]
  by_cases hskip : (jsTrim line == "" || strStartsWith (jsTrim line) "!" ||
      strStartsWith (jsTrim line) "#" || strStartsWith (jsTrim line) "[Adblock") = true
  · simp [hskip]
  · rw [Bool.not_eq_true] at hskip
    rcases h2 with h2 | h2 | h2 <;> simp [hskip, h1, h2]

/-- Non-exception lines in bounds but rejected by `parseFilterRule` are
skipped by the line parser. -/
theorem parseLines_skip_unparsed (line : String) (rest : List String)
    (h1 : strStartsWith (jsTrim line) "@@" = false)
    (h2 : parseFilterRule (jsTrim line) = none) :
    parseLines (line :: rest) = parseLines rest := by
  rcases hpr : parseLines rest with ⟨rules, exceptions⟩
  unfold parseLines
  rw [hpr]
  by_cases hskip : (jsTrim line == "" || strStartsWith (jsTrim line) "!" ||
      strStartsWith (jsTrim line) "#" || strStartsWith (jsTrim line) "[Adblock") = true
  · simp [hskip]
  · rw [Bool.not_eq_true] at hskip
    by_cases hlen : ((jsTrim line).length < 3 ∨ 2048 < (jsTrim line).length)
    · rcases hlen with h3 | h3 <;> simp [hskip, h1, h3]
    · rw [not_or] at hlen
      simp [hskip, h1, hlen.1, hlen.2, h2]

/-- Trimming an all-`a` line leaves it unchanged. -/
theorem jsTrim_replicate_a (n : Nat) :
    jsTrim (String.mk (List.replicate n 'a')) = String.mk (List.replicate n 'a') := by
  unfold jsTrim
  rw [mk_data]
  have ha : isJsWhitespace 'a' = false := rfl
  simp [ha, List.dropWhile_replicate]

/-- An all-`a` line does not start with `@@`. -/
theorem replicate_a_not_atat (n : Nat) :
    strStartsWith (String.mk (List.replicate n 'a')) "@@" = false := by
  unfold strStartsWith
  rw [mk_data]
  have hall : ("@@" : String).data.all (fun c => c == 'a') = false := rfl
  rw [List.isPrefixOf_replicate, hall, Bool.and_false]

/-- Length of an all-`a` line. -/
theorem replicate_a_length (n : Nat) :
    (String.mk (List.replicate n 'a')).length = n := by
  show (List.replicate n 'a').length = n
  exact List.length_replicate n 'a'

/-- The 5000-character line `"a".repeat(5000)` of the robustness scenario. -/
def longLine : String := String.mk (List.replicate 5000 'a')

/-- C8 counterexample: a line beginning with `[` that is not `[Adblock`
is NOT rejected — the source only skips lines starting with the literal
`[Adblock`, so the three-character line `[x]` produces a substring rule. -/
theorem bracket_line_yields_rule :
    strStartsWith "[x]" "[" = true
    ∧ (parseFilterList "[x]").1 =
        [⟨RuleType.substring, RulePattern.str "[x]", "[x]"⟩] := by
  refine ⟨by decide, by decide⟩

/-- C8 amended: empty/whitespace-only lines, lines starting with `!`, `#`
or the literal `[Adblock` (but not every `[` line), and non-exception
lines with trimmed length outside `[3, 2048]` produce no rule (for `@@`
lines the bounds apply to the stripped remainder); the six scenario inputs
`["", "!", "   ", "@@", "$script", "a".repeat(5000)]` together yield zero
rules, and every branch is total (no error is raised). -/
theorem line_rejection_amended :
    (∀ (line : String) (rest : List String), jsTrim line = "" →
      parseLines (line :: rest) = parseLines rest)
    ∧ (∀ (line : String) (rest : List String),
        strStartsWith (jsTrim line) "!" = true ∨ strStartsWith (jsTrim line) "#" = true ∨
          strStartsWith (jsTrim line) "[Adblock" = true →
        parseLines (line :: rest) = parseLines rest)
    ∧ (∀ (line : String) (rest : List String),
        strStartsWith (jsTrim line) "@@" = false →
        (jsTrim line).length < 3 ∨ 2048 < (jsTrim line).length →
        parseLines (line :: rest) = parseLines rest)
    ∧ parseLines ["", "!", "   ", "@@", "$script", longLine] = ([], []) := by
  refine ⟨parseLines_skip_blank, parseLines_skip_comment, parseLines_skip_length, ?_⟩
  have htrim : jsTrim longLine = longLine := jsTrim_replicate_a 5000
  have hat : strStartsWith (jsTrim longLine) "@@" = false := by
    rw [htrim]
    exact replicate_a_not_atat 5000
  have hlen : 2048 < (jsTrim longLine).length := by
    rw [htrim]
    have := replicate_a_length 5000
    rw [show longLine = String.mk (List.replicate 5000 'a') from rfl, this]
    decide
  calc parseLines ["", "!", "   ", "@@", "$script", longLine]
      = parseLines ["!", "   ", "@@", "$script", longLine] :=
        parseLines_skip_blank _ _ (by decide)
    _ = parseLines ["   ", "@@", "$script", longLine] :=
        parseLines_skip_comment _ _ (Or.inl (by decide))
    _ = parseLines ["@@", "$script", longLine] :=
        parseLines_skip_blank _ _ (by decide)
    _ = parseLines ["$script", longLine] :=
        parseLines_skip_exception _ _ (by decide) (Or.inl (by decide))
    _ = parseLines [longLine] :=
        parseLines_skip_unparsed _ _ (by decide) (by decide)
    _ = parseLines [] :=
        parseLines_skip_length _ _ hat (Or.inr hlen)
    _ = ([], []) := rfl

/-- Witness for C8: a two-character line is rejected by the length bound. -/
theorem line_rejection_amended_witness :
    parseLines ["ab"] = parseLines [] :=
  line_rejection_amended.2.2.1 "ab" [] (by decide) (Or.inl (by decide))

end AdBlock

namespace AdBlock

/-- Characterisation of the substring-only fallback check. -/
theorem substringFallbackMatch_iff (u : String) (r : Rule) :
    substringFallbackMatch u r = true ↔
      r.type = RuleType.substring ∧
        ∃ p, r.pattern = RulePattern.str p ∧ strIncludes u p = true := by
  rcases r with ⟨t, pat, raw⟩
  unfold substringFallbackMatch
  rcases pat with p | ro
  · simp [beq_iff_eq]
  · simp

/-- C9: for a URL whose structured parse fails, the decision (which never
raises — all functions are total) falls back to substring-only matching:
the verdict is "blocked" exactly when some Substring block rule's pattern
occurs in the raw URL and no Substring exception rule's pattern does;
rules of the other kinds (domain, start, end, regex) are never consulted,
so they cannot block an unparseable URL. -/
theorem unparseable_url_substring_fallback (ab : AdBlocker) (u : String)
    (hen : ab.isEnabled = true) (hne : u ≠ "") (hp : tryParseURL u = none) :
    shouldBlock ab (some u) = true ↔
      ((∃ f ∈ ab.filterRules, f.type = RuleType.substring ∧
          ∃ p, f.pattern = RulePattern.str p ∧ strIncludes u p = true) ∧
        ¬ ∃ e ∈ ab.exceptionRules, e.type = RuleType.substring ∧
          ∃ p, e.pattern = RulePattern.str p ∧ strIncludes u p = true) := by
  have hfalsy : jsFalsy (some u) = false := by
    simp [jsFalsy, hne]
  have hexc : matchesException ab (some u) =
      ab.exceptionRules.any (fun e => substringFallbackMatch u e) := by
    unfold matchesException
    rw [hfalsy]
    simp only [Option.getD_some, hp]
    rfl
  unfold shouldBlock
  rw [hen, hfalsy, hexc]
  simp only [Option.getD_some, hp, Bool.not_true, Bool.false_or]
  by_cases hany : ab.exceptionRules.any (fun e => substringFallbackMatch u e) = true
  · rw [hany]
    simp only [if_true]
    constructor
    · intro hfalse
      exact absurd hfalse (by simp)
    · rintro ⟨-, hno⟩
      exact absurd (by
        obtain ⟨e, he, hm⟩ := List.any_eq_true.mp hany
        exact ⟨e, he, (substringFallbackMatch_iff u e).mp hm⟩) hno
  · rw [Bool.not_eq_true] at hany
    rw [hany]
    simp only [Bool.false_eq_true, if_false]
    rw [List.any_eq_true]
    constructor
    · rintro ⟨f, hf, hm⟩
      refine ⟨⟨f, hf, (substringFallbackMatch_iff u f).mp hm⟩, ?_⟩
      rintro ⟨e, he, hce⟩
      have : ab.exceptionRules.any (fun e => substringFallbackMatch u e) = true :=
        List.any_eq_true.mpr ⟨e, he, (substringFallbackMatch_iff u e).mpr hce⟩
      rw [hany] at this
      exact Bool.noConfusion this
    · rintro ⟨⟨f, hf, hcf⟩, -⟩
      exact ⟨f, hf, (substringFallbackMatch_iff u f).mpr hcf⟩

/-- A blocker with one substring block rule, for the fallback witness. -/
def substringOnlyBlocker : AdBlocker :=
  ⟨[⟨RuleType.substring, RulePattern.str "tracker", "tracker"⟩], [], true⟩

/-- Witness for C9: the fallback characterisation at a concrete blocker
and the unparseable (scheme-less) URL `notaurl-tracker`. -/
theorem unparseable_url_substring_fallback_witness :
    shouldBlock substringOnlyBlocker (some "notaurl-tracker") = true ↔
      ((∃ f ∈ substringOnlyBlocker.filterRules, f.type = RuleType.substring ∧
          ∃ p, f.pattern = RulePattern.str p ∧ strIncludes "notaurl-tracker" p = true) ∧
        ¬ ∃ e ∈ substringOnlyBlocker.exceptionRules, e.type = RuleType.substring ∧
          ∃ p, e.pattern = RulePattern.str p ∧ strIncludes "notaurl-tracker" p = true) :=
  unparseable_url_substring_fallback substringOnlyBlocker "notaurl-tracker"
    rfl (by decide) (by decide)

end AdBlock
